import Mathlib

/-!
# Shufflr — shallow embedding of the access-control and image-API core

This file formalises the parts of the Shufflr repository that the
specification's testable properties are about:

* `internal/storage/database.go` — the SQLite-backed store (admin users,
  API keys, image files, settings), modelled as pure state (`DBState`)
  with list-based tables.  SQL `WHERE`/`LIMIT` queries become `List`
  filters and `find?`; `QueryRow` (first matching row) becomes `find?`.
* `internal/auth` (`src/unnamed/part_001`) — password login, the cookie
  session manager and the two guard middlewares.
* `internal/api/handlers.go` — `HandleRandomImages` and
  `HandleServeImage`.
* `cmd/server/main.go` (`src/unnamed/part_003`) — the `/api/images`
  route closure that conditionally applies the API-key guard.
* `internal/admin/handlers.go` — the regenerate-API-key flow
  (delete then create with the same display name).

Modelling conventions:

* SHA-256 (`sha256.Sum256` + hex) is an abstract function parameter
  `hash : String → String`; theorems that need distinct tokens to have
  distinct hashes take that as an explicit hypothesis.
* bcrypt comparison is an abstract `check : String → String → Bool`
  oracle (hash, plaintext).
* `ORDER BY RANDOM() LIMIT n` is an abstract oracle
  `pick : List ImageFile → Int → List ImageFile` applied to the enabled
  rows; theorems about error paths hold for every oracle, which shows
  the random query's result is never consulted there.
* Timestamps (`created_at`, `last_used`, `uploaded_at`) and the
  fire-and-forget last-used update are outside the model; store
  infrastructure errors (unreachable database) are not modelled, so Go
  `(value, error)` pairs whose error is only infrastructural become
  plain values / `Option`.
* Go `strconv.Atoi` is modelled by `atoi` below (optional sign, one
  or more ASCII digits; anything else is a parse error).
-/

/-- `models.AdminUser` (id, username, password hash; `created_at` omitted). -/
structure AdminUser where
  id : Nat
  username : String
  passwordHash : String
  deriving DecidableEq, Repr

/-- `models.APIKey` (id, key hash, display name, enabled flag;
timestamps omitted). -/
structure APIKey where
  id : Nat
  keyHash : String
  name : String
  enabled : Bool
  deriving DecidableEq, Repr

/-- `models.ImageFile` (id, filename, size, MIME type, enabled flag;
`uploaded_at` omitted). -/
structure ImageFile where
  id : Nat
  filename : String
  size : Nat
  mimeType : String
  enabled : Bool
  deriving DecidableEq, Repr

/-- The SQLite database state: the four tables used by the
access-control core plus the key-value `settings` table.  `nextKeyId`
models the `api_keys` AUTOINCREMENT counter. -/
structure DBState where
  adminUsers : List AdminUser
  apiKeys : List APIKey
  imageFiles : List ImageFile
  settings : List (String × String)
  nextKeyId : Nat
  deriving DecidableEq, Repr

namespace Shufflr

/-! ## Settings store (`database.go`: `GetSetting` / `SetSetting` /
`InitializeDefaultSettings`) -/

/-- Lookup in the `settings` table: value of the first row with the
key, or the empty string. -/
def getKV (l : List (String × String)) (key : String) : String :=
  match l.find? (fun p => p.1 == key) with
  | some p => p.2
  | none => ""

/-- `INSERT OR REPLACE` on the UNIQUE `key` column: replace the
existing row in place or append a fresh one. -/
def setKV (l : List (String × String)) (key value : String) : List (String × String) :=
  if l.any (fun p => p.1 == key) then
    l.map (fun p => if p.1 == key then (key, value) else p)
  else
    l ++ [(key, value)]

/-- `GetSetting`: `SELECT value FROM settings WHERE key = ?`; on
`sql.ErrNoRows` the Go code returns `("", nil)` — the empty string,
not an error. -/
def GetSetting (db : DBState) (key : String) : String :=
  getKV db.settings key

/-- `SetSetting`: `INSERT OR REPLACE INTO settings (key, value)`. -/
def SetSetting (db : DBState) (key value : String) : DBState :=
  { db with settings := setKV db.settings key value }

/-- The defaults seeded by `InitializeDefaultSettings`.  Go iterates a
map in unspecified order; the keys are pairwise distinct so the result
is order-independent and we fix one order. -/
def defaultSettingsList : List (String × String) :=
  [("require_api_key_for_images", "true"),
   ("default_image_count", "20"),
   ("max_image_count", "100"),
   ("cors_enabled", "true"),
   ("cors_origins", "*")]

/-- One iteration of `InitializeDefaultSettings`: only set the key if
`GetSetting` currently returns the empty string. -/
def initStep (db : DBState) (kv : String × String) : DBState :=
  if GetSetting db kv.1 == "" then SetSetting db kv.1 kv.2 else db

/-- `InitializeDefaultSettings`: seed each default if absent. -/
def InitializeDefaultSettings (db : DBState) : DBState :=
  defaultSettingsList.foldl initStep db

/-! ## API-key store (`database.go`) -/

/-- `CreateAPIKey`: the raw token (in Go, 32 random bytes hex-encoded)
is an input here; the stored record holds only `hash rawToken`.
Returns the updated state and the inserted record.  (The UNIQUE
constraint on `key_hash` means Go errors out if the hash is already
present; theorems carry that freshness as a hypothesis.) -/
def CreateAPIKey (hash : String → String) (db : DBState) (rawToken name : String) :
    DBState × APIKey :=
  let keyHash := hash rawToken
  let key : APIKey := { id := db.nextKeyId, keyHash := keyHash, name := name, enabled := true }
  ({ db with apiKeys := db.apiKeys ++ [key], nextKeyId := db.nextKeyId + 1 }, key)

/-- `GetAPIKeyByKey` (the spec's `verifyAPIKey`): hash the presented
raw token and run
`SELECT ... FROM api_keys WHERE key_hash = ? AND enabled = 1`;
no row means `(nil, nil)` — absent, not an error. -/
def GetAPIKeyByKey (hash : String → String) (db : DBState) (apiKey : String) : Option APIKey :=
  db.apiKeys.find? (fun k => k.keyHash == hash apiKey && k.enabled)

/-- `UpdateAPIKeyEnabled`: `UPDATE api_keys SET enabled = ? WHERE id = ?`. -/
def UpdateAPIKeyEnabled (db : DBState) (keyID : Nat) (enabled : Bool) : DBState :=
  { db with apiKeys := db.apiKeys.map (fun k => if k.id == keyID then { k with enabled := enabled } else k) }

/-- `DeleteAPIKey`: `DELETE FROM api_keys WHERE id = ?`. -/
def DeleteAPIKey (db : DBState) (keyID : Nat) : DBState :=
  { db with apiKeys := db.apiKeys.filter (fun k => !(k.id == keyID)) }

/-- `admin/handlers.go` `HandleRegenerateAPIKey` core: look the key up
by id (via `GetAllAPIKeys` and a linear scan), then delete it and
create a fresh key with the same display name.  `none` models the
"API key not found" redirect. -/
def RegenerateAPIKey (hash : String → String) (db : DBState) (keyID : Nat)
    (newRawToken : String) : Option (DBState × APIKey) :=
  match db.apiKeys.find? (fun k => k.id == keyID) with
  | none => none
  | some existing =>
      some (CreateAPIKey hash (DeleteAPIKey db keyID) newRawToken existing.name)

/-! ## Admin users and login (`database.go`, `auth.go`) -/

/-- `GetAdminUserByUsername`: first row with the username, or absent. -/
def GetAdminUserByUsername (db : DBState) (username : String) : Option AdminUser :=
  db.adminUsers.find? (fun u => u.username == username)

/-- `auth.go` `LoginAdmin` (the spec's `verifyAdminPassword`):
absent user and failed bcrypt comparison both return `(nil, nil)`.
`check hash plaintext` models `bcrypt.CompareHashAndPassword`
succeeding. -/
def LoginAdmin (check : String → String → Bool) (db : DBState)
    (username password : String) : Option AdminUser :=
  match GetAdminUserByUsername db username with
  | none => none
  | some user => if check user.passwordHash password then some user else none

/-! ## Lemmas about the settings store -/

theorem comp_update_eq_self (key value : String) :
    ((fun p : String × String => p.1 == key) ∘
      (fun p : String × String => if (p.1 == key) = true then (key, value) else p)) =
    (fun p : String × String => p.1 == key) := by
  funext p
  by_cases hp : (p.1 == key) = true
  · simp [Function.comp, hp]
  · simp [Function.comp, hp]

theorem getKV_setKV_self (l : List (String × String)) (key value : String) :
    getKV (setKV l key value) key = value := by
  unfold getKV setKV
  cases hany : l.any (fun p => p.1 == key) with
  | true =>
      rw [if_pos rfl, List.find?_map, comp_update_eq_self]
      obtain ⟨r, hr, hrk⟩ := List.any_eq_true.mp hany
      have hsome : (l.find? (fun p => p.1 == key)).isSome := by
        rw [List.find?_isSome]
        exact ⟨r, hr, hrk⟩
      obtain ⟨s, hs⟩ := Option.isSome_iff_exists.mp hsome
      have hsk : s.1 = key := by simpa using List.find?_some hs
      rw [hs]
      simp [hsk]
  | false =>
      rw [if_neg (by simp), List.find?_append]
      have hnone : l.find? (fun p => p.1 == key) = none := by
        rw [List.find?_eq_none]
        intro p hp hpk
        exact (List.any_eq_false.mp hany) p hp hpk
      rw [hnone]
      simp

theorem getKV_setKV_ne (l : List (String × String)) (key value key' : String)
    (h : key' ≠ key) : getKV (setKV l key value) key' = getKV l key' := by
  unfold getKV setKV
  have hkk : (key == key') = false := by
    simp only [beq_eq_false_iff_ne]
    exact fun he => h he.symm
  cases hany : l.any (fun p => p.1 == key) with
  | true =>
      rw [if_pos rfl, List.find?_map]
      have hcomp : ((fun p : String × String => p.1 == key') ∘
          (fun p : String × String => if (p.1 == key) = true then (key, value) else p)) =
          (fun p : String × String => p.1 == key') := by
        funext p
        by_cases hp : (p.1 == key) = true
        · have hp1 : p.1 = key := by simpa using hp
          have hp' : (p.1 == key') = false := by
            simp only [beq_eq_false_iff_ne]
            rw [hp1]
            exact fun he => h he.symm
          simp [Function.comp, hp, hp', hkk]
        · simp [Function.comp, hp]
      rw [hcomp]
      cases hfind : l.find? (fun p => p.1 == key') with
      | none => simp
      | some s =>
          have hsk := List.find?_some hfind
          have hs1 : s.1 = key' := by simpa using hsk
          have hsne : s.1 ≠ key := by rw [hs1]; exact h
          simp [hsne]
  | false =>
      rw [if_neg (by simp), List.find?_append]
      cases hfind : l.find? (fun p => p.1 == key') with
      | some s => simp
      | none => simp [hkk]

theorem getSetting_setSetting_self (db : DBState) (key value : String) :
    GetSetting (SetSetting db key value) key = value :=
  getKV_setKV_self db.settings key value

theorem getSetting_setSetting_ne (db : DBState) (key value key' : String)
    (h : key' ≠ key) : GetSetting (SetSetting db key value) key' = GetSetting db key' :=
  getKV_setKV_ne db.settings key value key' h

theorem getSetting_foldl_preserved (key : String) (kvs : List (String × String))
    (db : DBState) (h : ∀ kv ∈ kvs, kv.1 ≠ key) :
    GetSetting (kvs.foldl initStep db) key = GetSetting db key := by
  induction kvs generalizing db with
  | nil => rfl
  | cons kv t ih =>
      rw [List.foldl_cons]
      have hstep : GetSetting (initStep db kv) key = GetSetting db key := by
        unfold initStep
        by_cases hg : GetSetting db kv.1 == ""
        · rw [if_pos hg]
          exact getSetting_setSetting_ne db kv.1 kv.2 key
            (fun he => h kv (List.mem_cons_self kv t) he.symm)
        · rw [if_neg hg]
      rw [ih (initStep db kv) (fun kv' hkv' => h kv' (List.mem_cons_of_mem kv hkv')), hstep]

/-! ## The public API layer (`api/handlers.go`, `main.go`) -/

/-- The parts of an incoming HTTP request the image API consults. -/
structure ApiRequest where
  method : String
  urlPath : String
  /-- `X-API-Key` header; `""` when absent. -/
  xApiKey : String
  /-- `Authorization` header; `""` when absent. -/
  authHeader : String
  /-- `count` query parameter; `Query().Get` returns `""` when absent. -/
  countParam : String
  deriving DecidableEq, Repr

/-- Result of `HandleRandomImages` (possibly wrapped by the
`RequireAPIKey` middleware); each constructor is one `http.Error` /
response path of the Go code. -/
inductive HResult where
  /-- 405 Method not allowed. -/
  | methodNotAllowed
  /-- 401 "Unauthorized": key required but none attached to the context. -/
  | unauthorized
  /-- 400 "Invalid count parameter". -/
  | invalidCount
  /-- 400 "Requested count (c) exceeds maximum allowed (m)". -/
  | countExceedsMax (c m : Int)
  /-- 400 "Requested count (c) exceeds total images (t)". -/
  | countExceedsTotal (c t : Int)
  /-- 200 with the JSON body `{images, count}`. -/
  | ok (images : List ImageFile) (count : Nat)
  /-- 401 "API key required" from the middleware. -/
  | apiKeyRequired
  /-- 401 "Invalid API key" from the middleware. -/
  | invalidApiKey
  deriving DecidableEq, Repr

/-- `true` exactly on the 200 response. -/
def HResult.isSuccess : HResult → Bool
  | .ok _ _ => true
  | _ => false

/-- The enabled rows of `image_files` (`WHERE enabled = 1`). -/
def enabledImages (db : DBState) : List ImageFile :=
  db.imageFiles.filter (fun img => img.enabled)

/-- `GetImageFileCount`: `SELECT COUNT(*) FROM image_files WHERE enabled = 1`. -/
def GetImageFileCount (db : DBState) : Int :=
  ((enabledImages db).length : Int)

/-- `GetRandomImageFiles`: `SELECT ... WHERE enabled = 1 ORDER BY
RANDOM() LIMIT ?`, with the randomness abstracted into the `pick`
oracle applied to the enabled rows. -/
def GetRandomImageFiles (pick : List ImageFile → Int → List ImageFile)
    (db : DBState) (count : Int) : List ImageFile :=
  pick (enabledImages db) count

/-- One or more ASCII digits accumulated into a natural number;
anything else is a parse failure. -/
def parseDigits : List Char → Nat → Option Nat
  | [], acc => some acc
  | c :: cs, acc =>
      if c.isDigit then parseDigits cs (acc * 10 + (c.toNat - '0'.toNat))
      else none

/-- A non-empty all-digit character list as a natural number. -/
def parseDigitList (cs : List Char) : Option Nat :=
  match cs with
  | [] => none
  | _ => parseDigits cs 0

/-- Go `strconv.Atoi`: an optional `+`/`-` sign followed by at least
one ASCII digit; everything else errors (`none`). -/
def atoi (s : String) : Option Int :=
  match s.toList with
  | '+' :: cs => (parseDigitList cs).map (fun n => (n : Int))
  | '-' :: cs => (parseDigitList cs).map (fun n => -(n : Int))
  | cs => (parseDigitList cs).map (fun n => (n : Int))

/-- `handlers.go` lines 83–88: read `default_image_count`, substitute
`"20"` for an empty (= absent) value, then `strconv.Atoi` with the
error ignored (non-numeric strings give 0). -/
def effDefaultCount (db : DBState) : Int :=
  let s := GetSetting db "default_image_count"
  let s := if s == "" then "20" else s
  (atoi s).getD 0

/-- `handlers.go` lines 90–95: same for `max_image_count` with
fallback `"100"`. -/
def effMaxCount (db : DBState) : Int :=
  let s := GetSetting db "max_image_count"
  let s := if s == "" then "100" else s
  (atoi s).getD 0

/-- `handlers.go` lines 97–107: the `count` query parameter.  Absent
(`""`) falls back to the default; a string `strconv.Atoi` rejects, or
a parsed value `≤ 0`, is a 400 (`none` here). -/
def parseCount (defaultCount : Int) (countParam : String) : Option Int :=
  if countParam == "" then some defaultCount
  else
    match atoi countParam with
    | none => none
    | some c => if c ≤ 0 then none else some c

/-- `api/handlers.go` `HandleRandomImages`.  `ctxApiKey` is the key
record the middleware attached to the request context (if any). -/
def HandleRandomImages (pick : List ImageFile → Int → List ImageFile)
    (db : DBState) (ctxApiKey : Option APIKey) (req : ApiRequest) : HResult :=
  if req.method != "GET" then .methodNotAllowed
  else if GetSetting db "require_api_key_for_images" == "true" && ctxApiKey.isNone then
    .unauthorized
  else
    match parseCount (effDefaultCount db) req.countParam with
    | none => .invalidCount
    | some count =>
      if count > effMaxCount db then .countExceedsMax count (effMaxCount db)
      else if count > GetImageFileCount db then
        .countExceedsTotal count (GetImageFileCount db)
      else
        let images := GetRandomImageFiles pick db count
        .ok images images.length

/-- Go `strings.HasPrefix`, on characters. -/
def strStarts (s pre : String) : Bool := pre.toList.isPrefixOf s.toList

/-- Drop the first `n` characters (all prefixes stripped in this code
are ASCII, so characters coincide with Go's bytes). -/
def strDrop (s : String) (n : Nat) : String := String.mk (s.toList.drop n)

/-- `auth.go` `RequireAPIKey` middleware header extraction: `X-API-Key`
first, otherwise the `Authorization` header stripped of a `"Bearer "`
prefix (and `""` — no key — when that prefix is missing). -/
def extractAPIKeyGuard (req : ApiRequest) : String :=
  if req.xApiKey != "" then req.xApiKey
  else if strStarts req.authHeader "Bearer " then strDrop req.authHeader 7
  else ""

/-- `auth.go` `RequireAPIKey`: 401 when no token is presented, 401
when the lookup finds no enabled record, otherwise the wrapped handler
runs with the record attached to the context.  (The 500 path for a
store failure and the best-effort `UpdateAPIKeyLastUsed` side effect
are outside the model.) -/
def RequireAPIKey (hash : String → String) (db : DBState) (req : ApiRequest)
    (next : Option APIKey → HResult) : HResult :=
  let apiKey := extractAPIKeyGuard req
  if apiKey == "" then .apiKeyRequired
  else
    match GetAPIKeyByKey hash db apiKey with
    | none => .invalidApiKey
    | some key => next (some key)

/-- `main.go` `/api/images` route closure (non-OPTIONS case): read
`require_api_key_for_images` from the store on this very request and
either wrap the handler in `RequireAPIKey` or call it bare. -/
def routeApiImages (hash : String → String)
    (pick : List ImageFile → Int → List ImageFile)
    (db : DBState) (req : ApiRequest) : HResult :=
  if GetSetting db "require_api_key_for_images" == "true" then
    RequireAPIKey hash db req (fun ctx => HandleRandomImages pick db ctx req)
  else
    HandleRandomImages pick db none req

/-! ## The image-serving handler (`api/handlers.go` `HandleServeImage`) -/

/-- Go `filepath.Base` on a unix path, on the character list. -/
def pathBaseList (cs : List Char) : List Char :=
  let stripped := (cs.reverse.dropWhile (fun c => c == '/')).reverse
  (stripped.reverse.takeWhile (fun c => !(c == '/'))).reverse

/-- Go `filepath.Base`: `"."` for the empty path, `"/"` for an
all-separator path, otherwise the last path element with trailing
separators removed. -/
def pathBase (path : String) : String :=
  if path == "" then "."
  else
    let b := pathBaseList path.toList
    if b == [] then "/" else String.mk b

/-- Result of `HandleServeImage`; `serve dir name mime` stands for
`http.ServeFile(w, r, filepath.Join(dir, name))` with `Content-Type:
mime`. -/
inductive ServeResult where
  | methodNotAllowed
  /-- 401 "API key required". -/
  | keyRequired
  /-- 401 "Invalid API key". -/
  | invalidKey
  /-- 404 "Not found" / "Image not found". -/
  | notFound
  /-- 404 "Image file not found" (record exists, file missing on disk). -/
  | fileMissing
  | serve (dir name mime : String)
  deriving DecidableEq, Repr

/-- `HandleServeImage` lines 181–188: this handler re-implements the
header extraction inline and — unlike the middleware — uses the raw
`Authorization` value when it lacks the `"Bearer "` prefix. -/
def extractAPIKeyServe (req : ApiRequest) : String :=
  if req.xApiKey == "" then
    if strStarts req.authHeader "Bearer " then strDrop req.authHeader 7
    else req.authHeader
  else req.xApiKey

/-- The inline API-key gate of `HandleServeImage`: `some r` is the
error response to return, `none` means the gate passed. -/
def serveAuthCheck (hash : String → String) (db : DBState) (req : ApiRequest) :
    Option ServeResult :=
  if GetSetting db "require_api_key_for_images" == "true" then
    let k := extractAPIKeyServe req
    if k == "" then some .keyRequired
    else
      match GetAPIKeyByKey hash db k with
      | none => some .invalidKey
      | some _ => none
  else none

/-- `api/handlers.go` `HandleServeImage`.  `fs dir name` models
`os.Stat(filepath.Join(dir, name))` succeeding.  The Go code binds
`filename := strings.TrimPrefix(path, "/api/images/")` and then
reassigns `filename = filepath.Base(filename)`; here the two stages
are written out (`strDrop req.urlPath 12` is the trimmed suffix, and
`pathBase` of it the reassigned value). -/
def HandleServeImage (hash : String → String) (fs : String → String → Bool)
    (uploadDir : String) (db : DBState) (req : ApiRequest) : ServeResult :=
  if req.method != "GET" then .methodNotAllowed
  else
    match serveAuthCheck hash db req with
    | some e => e
    | none =>
      if !(strStarts req.urlPath "/api/images/") then .notFound
      else if strDrop req.urlPath 12 == "" then .notFound
      else
        match db.imageFiles.find?
            (fun img => img.filename == pathBase (strDrop req.urlPath 12)) with
        | none => .notFound
        | some img =>
          if !img.enabled then .notFound
          else if !(fs uploadDir (pathBase (strDrop req.urlPath 12))) then .fileMissing
          else .serve uploadDir (pathBase (strDrop req.urlPath 12)) img.mimeType

/-! ## Session manager (`auth.go`) -/

/-- A value stored in `session.Values` (Go `map[interface{}]interface{}`;
the code only ever stores an `int` user id and a `string` username, and
reads back with `.(int)` / `.(string)` type assertions). -/
inductive SessionVal where
  | vInt (n : Nat)
  | vStr (s : String)
  deriving DecidableEq, Repr

/-- The decoded `session.Values` map. -/
def SessionVals : Type := String → Option SessionVal

/-- Go map assignment `Values[k] = v`. -/
def SessionVals.set (vals : SessionVals) (k : String) (v : SessionVal) : SessionVals :=
  fun k' => if k' = k then some v else vals k'

/-- The client's session-cookie state as the gorilla `CookieStore`
sees it on the next request:

* `absent` — no `shufflr-session` cookie (never set, or cleared via
  `MaxAge = -1`);
* `valid vals` — a cookie that authenticates and decrypts to `vals`;
* `corrupt` — a cookie present but failing verification (bad
  signature, expired beyond the store's MaxAge, undecodable payload).
-/
inductive CookieState where
  | absent
  | valid (vals : SessionVals)
  | corrupt

/-- `store.Get(r, sessionName)` (gorilla `CookieStore`): a missing
cookie yields a fresh empty session and no error; a present cookie is
decoded by `securecookie`, and a decode/verification failure is
returned as a non-nil error. -/
def storeGet : CookieState → Except Unit SessionVals
  | .absent => .ok (fun _ => none)
  | .valid vals => .ok vals
  | .corrupt => .error ()

/-- `auth.go` `SetAdminSession` (the spec's `issue`): get the session,
store the user id and username, save — the response cookie now carries
those values.  A `store.Get` error is propagated. -/
def SetAdminSession (c : CookieState) (user : AdminUser) : Except Unit CookieState :=
  match storeGet c with
  | .error e => .error e
  | .ok vals =>
      .ok (.valid ((vals.set "user_id" (.vInt user.id)).set "username" (.vStr user.username)))

/-- `auth.go` `ClearAdminSession` (the spec's `invalidate`): empty the
values and set `MaxAge = -1`, which deletes the client cookie. -/
def ClearAdminSession (c : CookieState) : Except Unit CookieState :=
  match storeGet c with
  | .error e => .error e
  | .ok _ => .ok .absent

/-- `auth.go` `GetAdminFromSession` (the spec's `resolve`): a
`store.Get` error is returned as an error; a missing or ill-typed
`user_id`/`username` value yields `(nil, nil)` — absent; otherwise an
`AdminUser` holding just the id and username (the remaining fields are
Go zero values). -/
def GetAdminFromSession (c : CookieState) : Except Unit (Option AdminUser) :=
  match storeGet c with
  | .error e => .error e
  | .ok vals =>
      match vals "user_id" with
      | some (.vInt uid) =>
          match vals "username" with
          | some (.vStr uname) => .ok (some { id := uid, username := uname, passwordHash := "" })
          | _ => .ok none
      | _ => .ok none

/-- Outcome of the admin guard around a downstream handler producing
`α`: either the redirect to `/admin/login`, or the handler's result. -/
inductive GuardOutcome (α : Type) where
  | redirectLogin
  | handled (a : α)
  deriving DecidableEq, Repr

/-- `auth.go` `RequireAdminAuth`: an error from `GetAdminFromSession`
is logged and treated exactly like `nil` — redirect to the login page;
only a resolved user reaches the wrapped handler (with the identity
attached to the context, here passed to `next`). -/
def RequireAdminAuth {α : Type} (next : AdminUser → α) (c : CookieState) : GuardOutcome α :=
  match GetAdminFromSession c with
  | .error _ => .redirectLogin
  | .ok none => .redirectLogin
  | .ok (some user) => .handled (next user)

/-! ## Claim theorems -/

/-- **C1.** An API key record just created by `CreateAPIKey` (and hence
enabled) is returned by `GetAPIKeyByKey` (`verifyAPIKey`) applied to
its raw token; after `UpdateAPIKeyEnabled` sets that record's enabled
flag to false, the same lookup returns absent (`none` — in Go a nil
record with a nil error).  The freshness hypothesis mirrors the UNIQUE
constraint on `key_hash` (a duplicate insert errors out in Go). -/
theorem createAPIKey_verify_then_disable
    (hash : String → String) (db : DBState) (raw name : String)
    (db' : DBState) (rec : APIKey)
    (hcreate : CreateAPIKey hash db raw name = (db', rec))
    (hfresh : ∀ k ∈ db.apiKeys, k.keyHash ≠ hash raw) :
    GetAPIKeyByKey hash db' raw = some rec ∧
    GetAPIKeyByKey hash (UpdateAPIKeyEnabled db' rec.id false) raw = none := by
  have hdb' : db' = { db with
      apiKeys := db.apiKeys ++ [⟨db.nextKeyId, hash raw, name, true⟩],
      nextKeyId := db.nextKeyId + 1 } := by
    have := congrArg Prod.fst hcreate
    simpa [CreateAPIKey] using this.symm
  have hrec : rec = ⟨db.nextKeyId, hash raw, name, true⟩ := by
    have := congrArg Prod.snd hcreate
    simpa [CreateAPIKey] using this.symm
  subst hdb'
  subst hrec
  have holdnone : db.apiKeys.find? (fun k => k.keyHash == hash raw && k.enabled) = none := by
    rw [List.find?_eq_none]
    intro k hk
    simp only [Bool.and_eq_true, beq_iff_eq, not_and]
    intro hkh _
    exact hfresh k hk hkh
  constructor
  · unfold GetAPIKeyByKey
    simp only [List.find?_append, holdnone, Option.none_or]
    simp
  · unfold GetAPIKeyByKey UpdateAPIKeyEnabled
    simp only [List.find?_map]
    rw [show (List.find?
        ((fun k : APIKey => k.keyHash == hash raw && k.enabled) ∘
          (fun k : APIKey => if (k.id == db.nextKeyId) = true then { k with enabled := false } else k))
        (db.apiKeys ++ [⟨db.nextKeyId, hash raw, name, true⟩])) = none from ?_]
    · simp
    · rw [List.find?_eq_none]
      intro k hk
      rcases List.mem_append.mp hk with hmem | hmem
      · by_cases hid : (k.id == db.nextKeyId) = true
        · simp only [Function.comp, hid, if_pos]
          simp
        · simp only [Function.comp, if_neg hid]
          simp only [Bool.and_eq_true, beq_iff_eq, not_and]
          intro hkh _
          exact hfresh k hmem hkh
      · have hk' : k = ⟨db.nextKeyId, hash raw, name, true⟩ := by simpa using hmem
        subst hk'
        simp [Function.comp]

/-- Witness for C1 at a concrete store: an empty database, the raw
token `"tok"` and the identity as the hash oracle. -/
theorem createAPIKey_verify_then_disable_witness :
    GetAPIKeyByKey (fun s => s)
      ⟨[], [⟨1, "tok", "n", true⟩], [], [], 2⟩ "tok" = some ⟨1, "tok", "n", true⟩ ∧
    GetAPIKeyByKey (fun s => s)
      (UpdateAPIKeyEnabled ⟨[], [⟨1, "tok", "n", true⟩], [], [], 2⟩ 1 false) "tok" = none :=
  createAPIKey_verify_then_disable (fun s => s) ⟨[], [], [], [], 1⟩ "tok" "n"
    ⟨[], [⟨1, "tok", "n", true⟩], [], [], 2⟩ ⟨1, "tok", "n", true⟩ rfl
    (by intro k hk; exact absurd hk (List.not_mem_nil k))

/-- **C9.** Regenerating an existing API key (delete the record, then
create a new one with the same display name) invalidates the old raw
token (`verifyAPIKey` returns absent) while the freshly issued raw
token resolves to the new record, which carries the old display name.
The hypotheses are the store's UNIQUE-hash invariant (only the
regenerated record's hash matches the old token) plus
collision-freeness of the hash on the two tokens involved. -/
theorem regenerateAPIKey_old_fails_new_succeeds
    (hash : String → String) (db : DBState) (kid : Nat) (oldKey : APIKey)
    (oldRaw newRaw : String) (db' : DBState) (newKey : APIKey)
    (hfind : db.apiKeys.find? (fun k => k.id == kid) = some oldKey)
    (_hold : oldKey.keyHash = hash oldRaw)
    (huniq : ∀ k ∈ db.apiKeys, k.id ≠ kid → k.keyHash ≠ hash oldRaw)
    (hne : hash oldRaw ≠ hash newRaw)
    (hfreshNew : ∀ k ∈ db.apiKeys, k.keyHash ≠ hash newRaw)
    (hreg : RegenerateAPIKey hash db kid newRaw = some (db', newKey)) :
    GetAPIKeyByKey hash db' oldRaw = none ∧
    GetAPIKeyByKey hash db' newRaw = some newKey ∧
    newKey.name = oldKey.name := by
  unfold RegenerateAPIKey at hreg
  rw [hfind] at hreg
  have hpair : CreateAPIKey hash (DeleteAPIKey db kid) newRaw oldKey.name = (db', newKey) := by
    simpa using hreg
  have hdb' : db' = { DeleteAPIKey db kid with
      apiKeys := (DeleteAPIKey db kid).apiKeys ++
        [⟨(DeleteAPIKey db kid).nextKeyId, hash newRaw, oldKey.name, true⟩],
      nextKeyId := (DeleteAPIKey db kid).nextKeyId + 1 } := by
    have := congrArg Prod.fst hpair
    simpa [CreateAPIKey] using this.symm
  have hnewKey : newKey = ⟨(DeleteAPIKey db kid).nextKeyId, hash newRaw, oldKey.name, true⟩ := by
    have := congrArg Prod.snd hpair
    simpa [CreateAPIKey] using this.symm
  subst hdb'
  subst hnewKey
  have hdelmem : ∀ k ∈ (DeleteAPIKey db kid).apiKeys, k ∈ db.apiKeys ∧ k.id ≠ kid := by
    intro k hk
    unfold DeleteAPIKey at hk
    simp only [List.mem_filter] at hk
    exact ⟨hk.1, by simpa using hk.2⟩
  refine ⟨?_, ?_, rfl⟩
  · unfold GetAPIKeyByKey
    rw [List.find?_eq_none]
    intro k hk
    rcases List.mem_append.mp hk with hmem | hmem
    · obtain ⟨hkdb, hkid⟩ := hdelmem k hmem
      simp only [Bool.and_eq_true, beq_iff_eq, not_and]
      intro hkh _
      exact huniq k hkdb hkid hkh
    · have hk' : k = ⟨(DeleteAPIKey db kid).nextKeyId, hash newRaw, oldKey.name, true⟩ := by
        simpa using hmem
      subst hk'
      simp only [Bool.and_eq_true, beq_iff_eq, not_and]
      intro hkh _
      exact hne hkh.symm
  · unfold GetAPIKeyByKey
    rw [List.find?_append]
    have hleft : (DeleteAPIKey db kid).apiKeys.find?
        (fun k => k.keyHash == hash newRaw && k.enabled) = none := by
      rw [List.find?_eq_none]
      intro k hk
      obtain ⟨hkdb, _⟩ := hdelmem k hk
      simp only [Bool.and_eq_true, beq_iff_eq, not_and]
      intro hkh _
      exact hfreshNew k hkdb hkh
    rw [hleft]
    simp

/-- Witness for C9: a store holding one key (hash `"oldtok"`, id 1),
regenerated with fresh raw token `"newtok"`, identity hash oracle. -/
theorem regenerateAPIKey_witness :
    GetAPIKeyByKey (fun s => s)
      ⟨[], [⟨2, "newtok", "n", true⟩], [], [], 3⟩ "oldtok" = none ∧
    GetAPIKeyByKey (fun s => s)
      ⟨[], [⟨2, "newtok", "n", true⟩], [], [], 3⟩ "newtok" =
      some ⟨2, "newtok", "n", true⟩ ∧
    (⟨2, "newtok", "n", true⟩ : APIKey).name = (⟨1, "oldtok", "n", true⟩ : APIKey).name :=
  regenerateAPIKey_old_fails_new_succeeds (fun s => s)
    ⟨[], [⟨1, "oldtok", "n", true⟩], [], [], 2⟩ 1 ⟨1, "oldtok", "n", true⟩
    "oldtok" "newtok" ⟨[], [⟨2, "newtok", "n", true⟩], [], [], 3⟩ ⟨2, "newtok", "n", true⟩
    rfl rfl (by decide) (by decide) (by decide) rfl

/-- **C8.** `LoginAdmin` (`verifyAdminPassword`) returns the same
result shape — absent with no error — both when the username does not
exist and when the username exists but the bcrypt comparison fails, so
the two cases are indistinguishable by response shape.  (`check` is
the bcrypt oracle; infrastructure errors are outside the model.) -/
theorem loginAdmin_indistinguishable
    (check : String → String → Bool) (db : DBState)
    (u1 p1 u2 p2 : String) (usr2 : AdminUser)
    (h1 : GetAdminUserByUsername db u1 = none)
    (h2 : GetAdminUserByUsername db u2 = some usr2)
    (h3 : check usr2.passwordHash p2 = false) :
    LoginAdmin check db u1 p1 = none ∧
    LoginAdmin check db u2 p2 = none ∧
    LoginAdmin check db u1 p1 = LoginAdmin check db u2 p2 := by
  unfold LoginAdmin
  rw [h1, h2]
  simp [h3]

/-- Witness for C8: one admin user `"admin"`; the missing username
`"ghost"` and a wrong password for `"admin"` both yield `none`. -/
theorem loginAdmin_indistinguishable_witness :
    LoginAdmin (fun _ _ => false) ⟨[⟨1, "admin", "h"⟩], [], [], [], 1⟩ "ghost" "pw" = none ∧
    LoginAdmin (fun _ _ => false) ⟨[⟨1, "admin", "h"⟩], [], [], [], 1⟩ "admin" "pw" = none ∧
    LoginAdmin (fun _ _ => false) ⟨[⟨1, "admin", "h"⟩], [], [], [], 1⟩ "ghost" "pw" =
      LoginAdmin (fun _ _ => false) ⟨[⟨1, "admin", "h"⟩], [], [], [], 1⟩ "admin" "pw" :=
  loginAdmin_indistinguishable (fun _ _ => false) ⟨[⟨1, "admin", "h"⟩], [], [], [], 1⟩
    "ghost" "pw" "admin" "pw" ⟨1, "admin", "h"⟩ rfl rfl rfl

/-- The empty `session.Values` map of a fresh session. -/
def emptyVals : SessionVals := fun _ => none

/-- **C2.** A session issued by `SetAdminSession` for an admin user
and immediately read back by `GetAdminFromSession` from the resulting
cookie yields an identity with that user's id and username (the other
fields are Go zero values); after `ClearAdminSession` the cookie is
gone and `GetAdminFromSession` yields absent. -/
theorem setAdminSession_roundtrip_and_clear
    (c : CookieState) (u : AdminUser) (c' : CookieState)
    (hissue : SetAdminSession c u = .ok c') :
    GetAdminFromSession c' = .ok (some ⟨u.id, u.username, ""⟩) ∧
    ClearAdminSession c' = .ok .absent ∧
    GetAdminFromSession CookieState.absent = .ok none := by
  cases c with
  | corrupt => exact absurd hissue (by simp [SetAdminSession, storeGet])
  | absent =>
      have hc' : c' = .valid (SessionVals.set
          (SessionVals.set (fun _ => none) "user_id" (.vInt u.id))
          "username" (.vStr u.username)) := by
        have h := hissue
        simp only [SetAdminSession, storeGet] at h
        exact (Except.ok.inj h).symm
      subst hc'
      refine ⟨?_, rfl, rfl⟩
      simp [GetAdminFromSession, storeGet, SessionVals.set]
  | valid vals =>
      have hc' : c' = .valid (SessionVals.set
          (SessionVals.set vals "user_id" (.vInt u.id))
          "username" (.vStr u.username)) := by
        have h := hissue
        simp only [SetAdminSession, storeGet] at h
        exact (Except.ok.inj h).symm
      subst hc'
      refine ⟨?_, rfl, rfl⟩
      simp [GetAdminFromSession, storeGet, SessionVals.set]

/-- Witness for C2: issue a session for user 1/`"alice"` on a client
with no prior cookie, resolve it, then clear it. -/
theorem setAdminSession_roundtrip_witness :
    GetAdminFromSession
        (.valid (SessionVals.set (SessionVals.set emptyVals "user_id" (.vInt 1))
          "username" (.vStr "alice"))) = .ok (some ⟨1, "alice", ""⟩) ∧
    ClearAdminSession
        (.valid (SessionVals.set (SessionVals.set emptyVals "user_id" (.vInt 1))
          "username" (.vStr "alice"))) = .ok .absent ∧
    GetAdminFromSession CookieState.absent = .ok none :=
  setAdminSession_roundtrip_and_clear .absent ⟨1, "alice", "h"⟩
    (.valid (SessionVals.set (SessionVals.set emptyVals "user_id" (.vInt 1))
      "username" (.vStr "alice"))) rfl

/-- **C7 counterexample.** The claim says `GetAdminFromSession` returns
absent — never an error — on any verification failure.  But the Go code
propagates the cookie store's error (`if err != nil { return nil, err }`),
and gorilla's `CookieStore.Get` returns a non-nil error when a present
cookie fails authenticated decoding (bad signature, expired, malformed):
on such a cookie the function returns an error, not absent. -/
theorem getAdminFromSession_corrupt_is_error :
    GetAdminFromSession CookieState.corrupt = Except.error () := rfl

/-- **C7 amended.** `GetAdminFromSession` returns absent for a missing
cookie or a decodable cookie whose payload lacks a well-typed
user id / username; for a cookie that fails verification it returns an
error; and in every one of these non-success cases the admin guard
`RequireAdminAuth` redirects to the login page without invoking the
downstream handler (the result is `redirectLogin` for every possible
handler `next`). -/
theorem resolve_failures_guard_redirects :
    GetAdminFromSession CookieState.absent = .ok none ∧
    GetAdminFromSession (CookieState.valid emptyVals) = .ok none ∧
    GetAdminFromSession CookieState.corrupt = .error () ∧
    ∀ (α : Type) (next : AdminUser → α) (c : CookieState),
      (GetAdminFromSession c = .ok none ∨ GetAdminFromSession c = .error ()) →
      RequireAdminAuth next c = .redirectLogin := by
  refine ⟨rfl, rfl, rfl, ?_⟩
  intro α next c h
  unfold RequireAdminAuth
  rcases h with h | h <;> rw [h]

/-- Witness for the amended C7: the guard redirects on a corrupt
cookie, for a concrete downstream handler. -/
theorem resolve_failures_guard_redirects_witness :
    RequireAdminAuth (fun u => u.id) CookieState.corrupt = .redirectLogin :=
  resolve_failures_guard_redirects.2.2.2 Nat (fun u => u.id) .corrupt (Or.inr rfl)

/-- **C6.** Whenever the effective count (explicitly supplied or
defaulted) exceeds the configured `max_image_count`, `HandleRandomImages`
answers 400 "exceeds maximum" — for every database (hence regardless of
how many enabled images exist) and for every randomness oracle `pick`
(so the random-image query result is never consulted). -/
theorem handleRandomImages_count_exceeds_max
    (pick : List ImageFile → Int → List ImageFile) (db : DBState)
    (ctxKey : Option APIKey) (req : ApiRequest) (c : Int)
    (hget : req.method = "GET")
    (hauth : (GetSetting db "require_api_key_for_images" == "true" && ctxKey.isNone) = false)
    (hparse : parseCount (effDefaultCount db) req.countParam = some c)
    (hmax : c > effMaxCount db) :
    HandleRandomImages pick db ctxKey req = .countExceedsMax c (effMaxCount db) := by
  unfold HandleRandomImages
  rw [hget, hauth]
  simp only [bne_self_eq_false, Bool.false_eq_true, if_false, hparse, if_pos hmax]

/-- Witness for C6: no key required, empty catalog, `count=101` with
the default maximum 100. -/
theorem handleRandomImages_count_exceeds_max_witness :
    HandleRandomImages (fun l c => l.take c.toNat)
      ⟨[], [], [], [("require_api_key_for_images", "false")], 1⟩ none
      ⟨"GET", "/api/images", "", "", "101"⟩ = .countExceedsMax 101 100 :=
  handleRandomImages_count_exceeds_max (fun l c => l.take c.toNat)
    ⟨[], [], [], [("require_api_key_for_images", "false")], 1⟩ none
    ⟨"GET", "/api/images", "", "", "101"⟩ 101 rfl rfl rfl (by decide)

/-- **C3.** With `require_api_key_for_images = "true"`, a keyless
request to `/api/images` is rejected by the guard; after the setting is
flipped to `"false"` the very next request — same keyless request,
evaluated against the updated store (`main.go` re-reads the setting on
every request; nothing is cached) — skips the guard and succeeds,
provided its effective count is within the maximum and the catalog. -/
theorem toggleRequireKey_next_request_succeeds
    (hash : String → String) (pick : List ImageFile → Int → List ImageFile)
    (db db' : DBState) (req : ApiRequest) (c : Int)
    (hget : req.method = "GET")
    (hnokey : extractAPIKeyGuard req = "")
    (hreq : GetSetting db "require_api_key_for_images" = "true")
    (hdb' : db' = SetSetting db "require_api_key_for_images" "false")
    (hparse : parseCount (effDefaultCount db') req.countParam = some c)
    (hmax : ¬ c > effMaxCount db')
    (htot : ¬ c > GetImageFileCount db') :
    routeApiImages hash pick db req = .apiKeyRequired ∧
    routeApiImages hash pick db' req =
      .ok (GetRandomImageFiles pick db' c) (GetRandomImageFiles pick db' c).length := by
  constructor
  · have hb : (GetSetting db "require_api_key_for_images" == "true") = true := by
      rw [hreq]; decide
    unfold routeApiImages
    rw [hb]
    simp only [if_true]
    unfold RequireAPIKey
    rw [hnokey]
    simp
  · have hfalse : GetSetting db' "require_api_key_for_images" = "false" := by
      rw [hdb']
      exact getSetting_setSetting_self db "require_api_key_for_images" "false"
    have hb : (GetSetting db' "require_api_key_for_images" == "true") = false := by
      rw [hfalse]; decide
    unfold routeApiImages
    rw [hb]
    simp only [Bool.false_eq_true, if_false]
    unfold HandleRandomImages
    rw [hget, hb]
    simp only [bne_self_eq_false, Bool.false_eq_true, if_false, Bool.false_and, hparse,
      if_neg hmax, if_neg htot]

/-- Witness for C3: a two-image catalog, the setting toggled from
`"true"` to `"false"`, a keyless `count=2` request. -/
theorem toggleRequireKey_witness :
    routeApiImages (fun s => s) (fun l c => l.take c.toNat)
      ⟨[], [], [⟨1, "a.png", 1, "image/png", true⟩, ⟨2, "b.png", 1, "image/png", true⟩],
        [("require_api_key_for_images", "true")], 1⟩
      ⟨"GET", "/api/images", "", "", "2"⟩ = .apiKeyRequired ∧
    routeApiImages (fun s => s) (fun l c => l.take c.toNat)
      ⟨[], [], [⟨1, "a.png", 1, "image/png", true⟩, ⟨2, "b.png", 1, "image/png", true⟩],
        [("require_api_key_for_images", "false")], 1⟩
      ⟨"GET", "/api/images", "", "", "2"⟩ =
      .ok (GetRandomImageFiles (fun l c => l.take c.toNat)
        ⟨[], [], [⟨1, "a.png", 1, "image/png", true⟩, ⟨2, "b.png", 1, "image/png", true⟩],
          [("require_api_key_for_images", "false")], 1⟩ 2)
        (GetRandomImageFiles (fun l c => l.take c.toNat)
        ⟨[], [], [⟨1, "a.png", 1, "image/png", true⟩, ⟨2, "b.png", 1, "image/png", true⟩],
          [("require_api_key_for_images", "false")], 1⟩ 2).length :=
  toggleRequireKey_next_request_succeeds (fun s => s) (fun l c => l.take c.toNat)
    ⟨[], [], [⟨1, "a.png", 1, "image/png", true⟩, ⟨2, "b.png", 1, "image/png", true⟩],
      [("require_api_key_for_images", "true")], 1⟩
    ⟨[], [], [⟨1, "a.png", 1, "image/png", true⟩, ⟨2, "b.png", 1, "image/png", true⟩],
      [("require_api_key_for_images", "false")], 1⟩
    ⟨"GET", "/api/images", "", "", "2"⟩ 2 rfl rfl rfl (by decide) rfl (by decide) (by decide)

/-- **C5 counterexample.** The claim says an invalid `count` (non-numeric
or non-positive) falls back to the configured `default_image_count`.
In the code only an *absent* `count` falls back; an invalid one is
rejected with 400 "Invalid count parameter".  Here the default is
configured as 5, yet `count=abc` and `count=0` are both rejected. -/
theorem invalidCount_rejected_counterexample :
    effDefaultCount ⟨[], [], [⟨1, "a.png", 1, "image/png", true⟩],
      [("require_api_key_for_images", "false"), ("default_image_count", "5")], 1⟩ = 5 ∧
    HandleRandomImages (fun l c => l.take c.toNat)
      ⟨[], [], [⟨1, "a.png", 1, "image/png", true⟩],
        [("require_api_key_for_images", "false"), ("default_image_count", "5")], 1⟩
      none ⟨"GET", "/api/images", "", "", "abc"⟩ = .invalidCount ∧
    HandleRandomImages (fun l c => l.take c.toNat)
      ⟨[], [], [⟨1, "a.png", 1, "image/png", true⟩],
        [("require_api_key_for_images", "false"), ("default_image_count", "5")], 1⟩
      none ⟨"GET", "/api/images", "", "", "0"⟩ = .invalidCount := by
  refine ⟨by decide, by decide, by decide⟩

/-- **C5 amended.** An *absent* `count` parameter falls back to the
configured `default_image_count` (the request succeeds with that many
images requested, when it is within the maximum and the catalog); a
*present but invalid* `count` — non-numeric, or parsed but non-positive
— is rejected with 400 "Invalid count parameter" rather than falling
back. -/
theorem count_default_and_invalid_behaviour
    (pick : List ImageFile → Int → List ImageFile) (db : DBState)
    (ctxKey : Option APIKey) (req : ApiRequest)
    (hget : req.method = "GET")
    (hauth : (GetSetting db "require_api_key_for_images" == "true" && ctxKey.isNone) = false) :
    (req.countParam = "" → ¬ effDefaultCount db > effMaxCount db →
      ¬ effDefaultCount db > GetImageFileCount db →
      HandleRandomImages pick db ctxKey req =
        .ok (GetRandomImageFiles pick db (effDefaultCount db))
            (GetRandomImageFiles pick db (effDefaultCount db)).length) ∧
    (req.countParam ≠ "" → atoi req.countParam = none →
      HandleRandomImages pick db ctxKey req = .invalidCount) ∧
    (∀ c : Int, req.countParam ≠ "" → atoi req.countParam = some c → c ≤ 0 →
      HandleRandomImages pick db ctxKey req = .invalidCount) := by
  refine ⟨?_, ?_, ?_⟩
  · intro he hmax htot
    have hp : parseCount (effDefaultCount db) req.countParam = some (effDefaultCount db) := by
      unfold parseCount
      rw [he]
      simp
    unfold HandleRandomImages
    rw [hget, hauth]
    simp only [bne_self_eq_false, Bool.false_eq_true, if_false, hp, if_neg hmax, if_neg htot]
  · intro hne hatoi
    have hb : (req.countParam == "") = false := by
      simp only [beq_eq_false_iff_ne]
      exact hne
    have hp : parseCount (effDefaultCount db) req.countParam = none := by
      unfold parseCount
      rw [hb]
      simp only [Bool.false_eq_true, if_false, hatoi]
    unfold HandleRandomImages
    rw [hget, hauth]
    simp only [bne_self_eq_false, Bool.false_eq_true, if_false, hp]
  · intro c hne hatoi hc
    have hb : (req.countParam == "") = false := by
      simp only [beq_eq_false_iff_ne]
      exact hne
    have hp : parseCount (effDefaultCount db) req.countParam = none := by
      unfold parseCount
      rw [hb]
      simp only [Bool.false_eq_true, if_false, hatoi, if_pos hc]
    unfold HandleRandomImages
    rw [hget, hauth]
    simp only [bne_self_eq_false, Bool.false_eq_true, if_false, hp]

/-- Witness for the amended C5: a one-image catalog with
`default_image_count = 1` and no key requirement; the absent-`count`
branch applies with the default of 1. -/
theorem count_default_and_invalid_behaviour_witness :
    ((⟨"GET", "/api/images", "", "", ""⟩ : ApiRequest).countParam = "" →
      ¬ effDefaultCount ⟨[], [], [⟨1, "a.png", 1, "image/png", true⟩],
          [("require_api_key_for_images", "false"), ("default_image_count", "1")], 1⟩ >
        effMaxCount ⟨[], [], [⟨1, "a.png", 1, "image/png", true⟩],
          [("require_api_key_for_images", "false"), ("default_image_count", "1")], 1⟩ →
      ¬ effDefaultCount ⟨[], [], [⟨1, "a.png", 1, "image/png", true⟩],
          [("require_api_key_for_images", "false"), ("default_image_count", "1")], 1⟩ >
        GetImageFileCount ⟨[], [], [⟨1, "a.png", 1, "image/png", true⟩],
          [("require_api_key_for_images", "false"), ("default_image_count", "1")], 1⟩ →
      HandleRandomImages (fun l c => l.take c.toNat)
        ⟨[], [], [⟨1, "a.png", 1, "image/png", true⟩],
          [("require_api_key_for_images", "false"), ("default_image_count", "1")], 1⟩
        none ⟨"GET", "/api/images", "", "", ""⟩ =
        .ok (GetRandomImageFiles (fun l c => l.take c.toNat)
              ⟨[], [], [⟨1, "a.png", 1, "image/png", true⟩],
                [("require_api_key_for_images", "false"), ("default_image_count", "1")], 1⟩
              (effDefaultCount ⟨[], [], [⟨1, "a.png", 1, "image/png", true⟩],
                [("require_api_key_for_images", "false"), ("default_image_count", "1")], 1⟩))
            (GetRandomImageFiles (fun l c => l.take c.toNat)
              ⟨[], [], [⟨1, "a.png", 1, "image/png", true⟩],
                [("require_api_key_for_images", "false"), ("default_image_count", "1")], 1⟩
              (effDefaultCount ⟨[], [], [⟨1, "a.png", 1, "image/png", true⟩],
                [("require_api_key_for_images", "false"), ("default_image_count", "1")], 1⟩)).length) ∧
    ((⟨"GET", "/api/images", "", "", ""⟩ : ApiRequest).countParam ≠ "" →
      atoi (⟨"GET", "/api/images", "", "", ""⟩ : ApiRequest).countParam = none →
      HandleRandomImages (fun l c => l.take c.toNat)
        ⟨[], [], [⟨1, "a.png", 1, "image/png", true⟩],
          [("require_api_key_for_images", "false"), ("default_image_count", "1")], 1⟩
        none ⟨"GET", "/api/images", "", "", ""⟩ = .invalidCount) ∧
    (∀ c : Int, (⟨"GET", "/api/images", "", "", ""⟩ : ApiRequest).countParam ≠ "" →
      atoi (⟨"GET", "/api/images", "", "", ""⟩ : ApiRequest).countParam = some c → c ≤ 0 →
      HandleRandomImages (fun l c => l.take c.toNat)
        ⟨[], [], [⟨1, "a.png", 1, "image/png", true⟩],
          [("require_api_key_for_images", "false"), ("default_image_count", "1")], 1⟩
        none ⟨"GET", "/api/images", "", "", ""⟩ = .invalidCount) :=
  count_default_and_invalid_behaviour (fun l c => l.take c.toNat)
    ⟨[], [], [⟨1, "a.png", 1, "image/png", true⟩],
      [("require_api_key_for_images", "false"), ("default_image_count", "1")], 1⟩
    none ⟨"GET", "/api/images", "", "", ""⟩ rfl rfl

/-- **C4 counterexample.** The claim says that with
`require_api_key_for_images` absent from the settings table the
hardcoded fallback `"true"` applies and the API-key guard stays in
force.  In the code `GetSetting` returns `("", nil)` for an absent key,
and both the route and the handler compare that `""` against `"true"`
— the `"true"` fallback is only installed when `GetSetting` returns an
*error* — so with the key absent a keyless request sails through: the
guard is skipped and the request succeeds. -/
theorem absentRequireKey_guard_skipped_counterexample :
    GetSetting ⟨[], [], [⟨1, "a.png", 1, "image/png", true⟩], [], 1⟩
      "require_api_key_for_images" = "" ∧
    extractAPIKeyGuard ⟨"GET", "/api/images", "", "", "1"⟩ = "" ∧
    routeApiImages (fun s => s) (fun l c => l.take c.toNat)
      ⟨[], [], [⟨1, "a.png", 1, "image/png", true⟩], [], 1⟩
      ⟨"GET", "/api/images", "", "", "1"⟩ =
      .ok [⟨1, "a.png", 1, "image/png", true⟩] 1 := by
  refine ⟨by decide, by decide, by decide⟩

/-- **C4 amended.** Reading an absent settings key never fails: it
returns the empty string.  For `default_image_count` and
`max_image_count` the code explicitly replaces the empty string by the
hardcoded fallbacks 20 and 100.  For `require_api_key_for_images`,
however, the hardcoded `"true"` fallback applies only on a store
*error*; on mere absence the empty string is compared against
`"true"`, so the API-key guard is skipped (the route invokes the
handler bare).  The guard is in force once
`InitializeDefaultSettings` — run at every startup — has seeded the
key to `"true"`. -/
theorem absentSetting_fallbacks_and_guard
    (hash : String → String) (pick : List ImageFile → Int → List ImageFile)
    (db : DBState) (req : ApiRequest)
    (habsent : GetSetting db "require_api_key_for_images" = "")
    (hdef : GetSetting db "default_image_count" = "")
    (hmax : GetSetting db "max_image_count" = "") :
    effDefaultCount db = 20 ∧
    effMaxCount db = 100 ∧
    routeApiImages hash pick db req = HandleRandomImages pick db none req ∧
    GetSetting (InitializeDefaultSettings db) "require_api_key_for_images" = "true" := by
  refine ⟨?_, ?_, ?_, ?_⟩
  · unfold effDefaultCount
    rw [hdef]
    decide
  · unfold effMaxCount
    rw [hmax]
    decide
  · have hb : (GetSetting db "require_api_key_for_images" == "true") = false := by
      rw [habsent]; decide
    unfold routeApiImages
    rw [hb]
    simp only [Bool.false_eq_true, if_false]
  · unfold InitializeDefaultSettings defaultSettingsList
    rw [List.foldl_cons]
    have hc : (GetSetting db ("require_api_key_for_images", "true").1 == "") = true := by
      rw [show ("require_api_key_for_images", "true").1 = "require_api_key_for_images" from rfl,
        habsent]
      decide
    rw [show initStep db ("require_api_key_for_images", "true") =
        SetSetting db "require_api_key_for_images" "true" from by
      unfold initStep
      rw [if_pos hc]]
    rw [getSetting_foldl_preserved "require_api_key_for_images" _ _ (by decide)]
    exact getSetting_setSetting_self db "require_api_key_for_images" "true"

/-- Witness for the amended C4 at a concrete store with an empty
settings table. -/
theorem absentSetting_fallbacks_and_guard_witness :
    effDefaultCount ⟨[], [], [], [], 1⟩ = 20 ∧
    effMaxCount ⟨[], [], [], [], 1⟩ = 100 ∧
    routeApiImages (fun s => s) (fun l c => l.take c.toNat) ⟨[], [], [], [], 1⟩
        ⟨"GET", "/api/images", "", "", ""⟩ =
      HandleRandomImages (fun l c => l.take c.toNat) ⟨[], [], [], [], 1⟩ none
        ⟨"GET", "/api/images", "", "", ""⟩ ∧
    GetSetting (InitializeDefaultSettings ⟨[], [], [], [], 1⟩)
      "require_api_key_for_images" = "true" :=
  absentSetting_fallbacks_and_guard (fun s => s) (fun l c => l.take c.toNat)
    ⟨[], [], [], [], 1⟩ ⟨"GET", "/api/images", "", "", ""⟩ rfl rfl rfl

/-- The inline API-key gate can only pass (`none`) or answer one of the
two 401s — never a `serve`. -/
theorem serveAuthCheck_cases (hash : String → String) (db : DBState) (req : ApiRequest) :
    serveAuthCheck hash db req = none ∨
    serveAuthCheck hash db req = some .keyRequired ∨
    serveAuthCheck hash db req = some .invalidKey := by
  unfold serveAuthCheck
  by_cases h1 : (GetSetting db "require_api_key_for_images" == "true") = true
  · rw [if_pos h1]
    by_cases h2 : (extractAPIKeyServe req == "") = true
    · rw [if_pos h2]
      right; left; rfl
    · rw [if_neg h2]
      cases GetAPIKeyByKey hash db (extractAPIKeyServe req) with
      | none => right; right; rfl
      | some k => left; rfl
  · rw [if_neg h1]
    left; rfl

/-- **C10.** `HandleServeImage` reduces the supplied filename to its
`filepath.Base` before the database lookup, so whenever it serves a
file at all, the served path is the upload directory joined with that
basename, the basename is the filename of an enabled database record,
and — provided the catalog's stored filenames are themselves
separator-free and none of `""`/`"."`/`".."` — the basename contains
no separator and is not a traversal component, so no request path
(e.g. one containing `../`) can reach a file outside the upload
directory. -/
theorem serveImage_confined_to_uploadDir
    (hash : String → String) (fs : String → String → Bool) (uploadDir : String)
    (db : DBState) (req : ApiRequest) (dir name mime : String)
    (hwf : ∀ img ∈ db.imageFiles, ¬ img.filename.toList.contains '/' ∧
        img.filename ≠ "" ∧ img.filename ≠ "." ∧ img.filename ≠ "..")
    (hserve : HandleServeImage hash fs uploadDir db req = .serve dir name mime) :
    dir = uploadDir ∧
    name = pathBase (strDrop req.urlPath 12) ∧
    (∃ img ∈ db.imageFiles, img.filename = name ∧ img.enabled = true ∧ img.mimeType = mime) ∧
    ¬ name.toList.contains '/' ∧ name ≠ "" ∧ name ≠ "." ∧ name ≠ ".." := by
  unfold HandleServeImage at hserve
  split at hserve
  · exact ServeResult.noConfusion hserve
  · rcases serveAuthCheck_cases hash db req with hac | hac | hac <;> rw [hac] at hserve <;>
      split at hserve
    -- gate passed, impossible some-branch of the match on `none`
    · rename_i e heq
      exact Option.noConfusion heq
    -- gate passed, the real branch
    · split at hserve
      · exact ServeResult.noConfusion hserve
      · split at hserve
        · exact ServeResult.noConfusion hserve
        · split at hserve
          · exact ServeResult.noConfusion hserve
          · rename_i img hfind
            split at hserve
            · exact ServeResult.noConfusion hserve
            · rename_i henab
              split at hserve
              · exact ServeResult.noConfusion hserve
              · obtain ⟨h1, h2, h3⟩ := ServeResult.serve.inj hserve
                subst h1
                subst h2
                subst h3
                have hmem := List.mem_of_find?_eq_some hfind
                have hname : img.filename = pathBase (strDrop req.urlPath 12) := by
                  have := List.find?_some hfind
                  simpa using this
                obtain ⟨hnc, hne, hnd, hndd⟩ := hwf img hmem
                rw [← hname]
                refine ⟨rfl, rfl, ⟨img, hmem, rfl, ?_, rfl⟩, hnc, hne, hnd, hndd⟩
                simpa using henab
    -- gate answered 401 keyRequired
    · rename_i e heq
      rw [← Option.some.inj heq] at hserve
      exact ServeResult.noConfusion hserve
    · rename_i heq
      exact Option.noConfusion heq
    -- gate answered 401 invalidKey
    · rename_i e heq
      rw [← Option.some.inj heq] at hserve
      exact ServeResult.noConfusion hserve
    · rename_i heq
      exact Option.noConfusion heq

/-- Witness for C10: a request whose path contains `../`
(`/api/images/../cat.png`) is reduced to the basename `cat.png`, which
matches the single enabled record and is served from the upload
directory. -/
theorem serveImage_confined_witness :
    "/app/uploads" = "/app/uploads" ∧
    "cat.png" = pathBase (strDrop "/api/images/../cat.png" 12) ∧
    (∃ img ∈ [(⟨1, "cat.png", 3, "image/png", true⟩ : ImageFile)],
      img.filename = "cat.png" ∧ img.enabled = true ∧ img.mimeType = "image/png") ∧
    ¬ ("cat.png").toList.contains '/' ∧ "cat.png" ≠ "" ∧ "cat.png" ≠ "." ∧ "cat.png" ≠ ".." := by
  have h := serveImage_confined_to_uploadDir (fun s => s) (fun _ _ => true) "/app/uploads"
    ⟨[], [], [⟨1, "cat.png", 3, "image/png", true⟩], [], 1⟩
    ⟨"GET", "/api/images/../cat.png", "", "", ""⟩ "/app/uploads" "cat.png" "image/png"
    (by decide) (by decide)
  simpa using h

end Shufflr
